import Mathlib

/-!
Verification development for the Tiger frontend state-synchronization core.

The embedded source files:
* the Pinia app store (state shape, the `patch` action, and the derived-view
  getters `currentDocument`, `sortedAnimations`, `currentAnimation`,
  `currentSequence`, `currentKeyframe`, `selectedFrames`, `selectedAnimations`,
  `selectedHitboxes`, `selectedKeyframes`, `canCut`, `canCopy`);
* the keyboard shortcut handler `onKeyDown`;
* the command gateway functions of `src/api/document.ts`
  (`appStore.patch(await invoke(cmd))`).

JavaScript maps (plain objects keyed by animation name / sequence direction)
are embedded as association lists in insertion order, which is the iteration
order of `Object.values` for the non-numeric keys used here.  Optional /
nullable fields are embedded as `Option`.  JavaScript truthiness tests on
strings are embedded explicitly (absent or empty string is falsy).
-/

/-! ### Data model (dto shapes used by the store; spec section 3) -/

structure Hitbox where
  selected : Bool
deriving DecidableEq, Repr

structure Keyframe where
  hitboxes : List Hitbox
  selected : Bool
deriving DecidableEq, Repr

structure Sequence where
  keyframes : List Keyframe
deriving DecidableEq, Repr

structure Animation where
  name : String
  selected : Bool
  sequences : List (String × Sequence)
deriving DecidableEq, Repr

structure Frame where
  path : String
  selected : Bool
deriving DecidableEq, Repr

structure Sheet where
  frames : List Frame
  animations : List (String × Animation)
deriving DecidableEq, Repr

structure Document where
  path : String
  sheet : Sheet
  currentAnimationName : Option String
  currentSequenceDirection : Option String
  currentKeyframeIndex : Option Nat
  timelineIsPlaying : Bool
  wasCloseRequested : Bool
  framesBeingRelocated : Bool
  exportSettingsBeingEdited : Bool
deriving DecidableEq, Repr

structure AppState where
  documents : List Document
  currentDocumentPath : Option String
  recentDocumentPaths : List String
  clipboardManifest : Option String
  isReleaseBuild : Bool
  error : Option String
deriving DecidableEq, Repr

/-! ### Derived-view getters (the app store's `getters` block)

The animation sort comparator compares `name.toLowerCase()` with the string
`<` / `>` operators and returns -1/0/1; `Array.prototype.sort` is a stable
sort with respect to that comparator.  It is embedded as a stable merge sort
over the boolean relation "comparator result is not positive", with the
lexicographic character comparison written out explicitly. -/

def lexLt : List Char → List Char → Bool
  | [], [] => false
  | [], _ :: _ => true
  | _ :: _, [] => false
  | a :: as, b :: bs => if a < b then true else if b < a then false else lexLt as bs

def lowerChars (s : String) : List Char := s.data.map Char.toLower

/-- `nameLe a b` is true when the source comparator on `(a, b)` returns a
non-positive number, i.e. when the stable sort keeps `a` before `b`. -/
def nameLe (a b : Animation) : Bool :=
  !(lexLt (lowerChars b.name) (lowerChars a.name))

/-- Plain-object key lookup (`m[k]`): `none` when the key is missing
(`undefined` in the source). -/
def lookupStr {α : Type} (m : List (String × α)) (k : String) : Option α :=
  (m.find? (fun f => f.1 == k)).map Prod.snd

/-- getter `currentDocument`: linear scan of `state.documents` for the
document whose `path` equals `state.currentDocumentPath`. -/
def currentDocument (state : AppState) : Option Document :=
  state.documents.find? (fun document => state.currentDocumentPath == some document.path)

/-- getter `sortedAnimations`: `Object.values` of the current document's
animation map, sorted by the case-insensitive name comparator; `null` when
there is no current document. -/
def sortedAnimations (state : AppState) : Option (List Animation) :=
  match currentDocument state with
  | none => none
  | some document => some ((document.sheet.animations.map Prod.snd).mergeSort nameLe)

/-- getter `currentAnimation`: truthiness test on `currentAnimationName`
(absent or empty string fails), then a map lookup. -/
def currentAnimation (state : AppState) : Option Animation :=
  match currentDocument state with
  | some document =>
    match document.currentAnimationName with
    | some name => if name == "" then none else lookupStr document.sheet.animations name
    | none => none
  | none => none

/-- getter `currentSequence`: requires `currentAnimation` and a truthy
`currentSequenceDirection`, then a map lookup. -/
def currentSequence (state : AppState) : Option Sequence :=
  match currentAnimation state, currentDocument state with
  | some animation, some document =>
    match document.currentSequenceDirection with
    | some direction =>
      if direction == "" then none else lookupStr animation.sequences direction
    | none => none
  | _, _ => none

/-- getter `currentKeyframe`: requires `currentSequence` and
`currentKeyframeIndex != null` (a loose null check, so index 0 passes), then
an array index (out of bounds gives `undefined`). -/
def currentKeyframe (state : AppState) : Option Keyframe :=
  match currentSequence state, currentDocument state with
  | some sequence, some document =>
    match document.currentKeyframeIndex with
    | some index => sequence.keyframes[index]?
    | none => none
  | _, _ => none

/-- getter `selectedFrames`: the current document's frames with
`selected == true`; `null` without a current document. -/
def selectedFrames (state : AppState) : Option (List Frame) :=
  (currentDocument state).map (fun document => document.sheet.frames.filter (fun f => f.selected))

/-- getter `selectedAnimations`: `sortedAnimations` filtered on `selected`. -/
def selectedAnimations (state : AppState) : Option (List Animation) :=
  (sortedAnimations state).map (fun animations => animations.filter (fun a => a.selected))

/-- getter `selectedHitboxes`: the current keyframe's hitboxes with
`selected == true`. -/
def selectedHitboxes (state : AppState) : Option (List Hitbox) :=
  (currentKeyframe state).map (fun keyframe => keyframe.hitboxes.filter (fun h => h.selected))

/-- getter `selectedKeyframes`: `Object.values(currentAnimation.sequences)`
flat-mapped to each sequence's keyframes with `selected == true`. -/
def selectedKeyframes (state : AppState) : Option (List Keyframe) :=
  (currentAnimation state).map (fun animation =>
    (animation.sequences.map Prod.snd).flatMap
      (fun sequence => sequence.keyframes.filter (fun k => k.selected)))

/-- Truthiness of `list?.length`: false for `null`/`undefined` and for an
empty list, true otherwise. -/
def lengthTruthy {α : Type} : Option (List α) → Bool
  | some l => !l.isEmpty
  | none => false

/-- getter `canCut`. -/
def canCut (state : AppState) : Bool :=
  lengthTruthy (selectedAnimations state) || lengthTruthy (selectedKeyframes state) ||
    lengthTruthy (selectedHitboxes state)

/-- getter `canCopy`. -/
def canCopy (state : AppState) : Bool :=
  lengthTruthy (selectedFrames state) || lengthTruthy (selectedAnimations state) ||
    lengthTruthy (selectedKeyframes state) || lengthTruthy (selectedHitboxes state)

/-! ### State-threaded getters

JavaScript getters execute against the live store, so in principle a getter
body could write the store it reads.  Each getter body is re-embedded here in
state-passing style, returning its value together with the store state after
evaluation, step for step with the source: `Object.values`, `filter`,
`flatMap` and the spread-free comparator all allocate fresh arrays, and the
single in-place operation (`Array.prototype.sort` inside `sortedAnimations`)
acts on the fresh array returned by `Object.values`, not on the stored
animation map. -/

def currentDocumentRun (st : AppState) : Option Document × AppState :=
  (st.documents.find? (fun document => st.currentDocumentPath == some document.path), st)

def sortedAnimationsRun (st : AppState) : Option (List Animation) × AppState :=
  match currentDocumentRun st with
  | (none, st1) => (none, st1)
  | (some document, st1) =>
    let animations := document.sheet.animations.map Prod.snd
    (some (animations.mergeSort nameLe), st1)

def currentAnimationRun (st : AppState) : Option Animation × AppState :=
  match currentDocumentRun st with
  | (some document, st1) =>
    (match document.currentAnimationName with
     | some name =>
       if name == "" then none else lookupStr document.sheet.animations name
     | none => none, st1)
  | (none, st1) => (none, st1)

def currentSequenceRun (st : AppState) : Option Sequence × AppState :=
  match currentAnimationRun st with
  | (some animation, st1) =>
    match currentDocumentRun st1 with
    | (some document, st2) =>
      (match document.currentSequenceDirection with
       | some direction =>
         if direction == "" then none else lookupStr animation.sequences direction
       | none => none, st2)
    | (none, st2) => (none, st2)
  | (none, st1) => (none, st1)

def currentKeyframeRun (st : AppState) : Option Keyframe × AppState :=
  match currentSequenceRun st with
  | (some sequence, st1) =>
    match currentDocumentRun st1 with
    | (some document, st2) =>
      (match document.currentKeyframeIndex with
       | some index => sequence.keyframes[index]?
       | none => none, st2)
    | (none, st2) => (none, st2)
  | (none, st1) => (none, st1)

def selectedFramesRun (st : AppState) : Option (List Frame) × AppState :=
  match currentDocumentRun st with
  | (some document, st1) => (some (document.sheet.frames.filter (fun f => f.selected)), st1)
  | (none, st1) => (none, st1)

def selectedAnimationsRun (st : AppState) : Option (List Animation) × AppState :=
  match sortedAnimationsRun st with
  | (some animations, st1) => (some (animations.filter (fun a => a.selected)), st1)
  | (none, st1) => (none, st1)

def selectedHitboxesRun (st : AppState) : Option (List Hitbox) × AppState :=
  match currentKeyframeRun st with
  | (some keyframe, st1) => (some (keyframe.hitboxes.filter (fun h => h.selected)), st1)
  | (none, st1) => (none, st1)

def selectedKeyframesRun (st : AppState) : Option (List Keyframe) × AppState :=
  match currentAnimationRun st with
  | (some animation, st1) =>
    (some ((animation.sequences.map Prod.snd).flatMap
      (fun sequence => sequence.keyframes.filter (fun k => k.selected))), st1)
  | (none, st1) => (none, st1)

def canCutRun (st : AppState) : Bool × AppState :=
  match selectedAnimationsRun st with
  | (oa, st1) =>
    match selectedKeyframesRun st1 with
    | (ok, st2) =>
      match selectedHitboxesRun st2 with
      | (oh, st3) => (lengthTruthy oa || lengthTruthy ok || lengthTruthy oh, st3)

def canCopyRun (st : AppState) : Bool × AppState :=
  match selectedFramesRun st with
  | (of, st1) =>
    match selectedAnimationsRun st1 with
    | (oa, st2) =>
      match selectedKeyframesRun st2 with
      | (ok, st3) =>
        match selectedHitboxesRun st3 with
        | (oh, st4) =>
          (lengthTruthy of || lengthTruthy oa || lengthTruthy ok || lengthTruthy oh, st4)

/-! ### JSON document trees and the patch engine -/

/-- A JSON value, the shape of the mirrored state tree that `applyPatch`
mutates. -/
inductive Json where
  | null
  | bool (b : Bool)
  | num (n : Int)
  | str (s : String)
  | arr (elems : List Json)
  | obj (fields : List (String × Json))

/-- The six JSON-Patch operation kinds. -/
inductive OpKind where
  | add
  | remove
  | replace
  | move
  | copy
  | test
deriving DecidableEq, Repr

/-- A parsed JSON-pointer segment: an object key, an array index, or the
array-append marker. -/
inductive Seg where
  | key (k : String)
  | idx (i : Nat)
  | append
deriving DecidableEq, Repr

/-- One patch operation `{op, path, value?, from?}`. -/
structure PatchOp where
  op : OpKind
  path : List Seg
  value : Option Json := none
  fromPath : Option (List Seg) := none

def getField (fields : List (String × Json)) (k : String) : Option Json :=
  (fields.find? (fun f => f.1 == k)).map Prod.snd

/-- Object key assignment: overwrite in place when the key exists, append
otherwise. -/
def setField : List (String × Json) → String → Json → List (String × Json)
  | [], k, v => [(k, v)]
  | (k0, v0) :: rest, k, v =>
    if k0 == k then (k0, v) :: rest else (k0, v0) :: setField rest k v

def removeField : List (String × Json) → String → List (String × Json)
  | [], _ => []
  | (k0, v0) :: rest, k => if k0 == k then rest else (k0, v0) :: removeField rest k

def insertAt {α : Type} (l : List α) (i : Nat) (a : α) : List α :=
  l.take i ++ a :: l.drop i

/-- Resolve a pointer to the value it designates, `none` when any segment
fails to resolve. -/
def getJson : Json → List Seg → Option Json
  | j, [] => some j
  | Json.obj fields, Seg.key k :: rest =>
    match getField fields k with
    | some child => getJson child rest
    | none => none
  | Json.arr elems, Seg.idx i :: rest =>
    match elems[i]? with
    | some child => getJson child rest
    | none => none
  | _, _ => none

/-- Modelled from the spec: the `add` operation of the JSON-Patch engine
(the `fast-json-patch` dependency applied by the store's `patch` action is
not part of the repository sources).  Standard JSON-Patch semantics: the
final segment inserts (object key set; array insert shifting later elements;
`-` appends), every earlier segment must already resolve, and an unresolved
parent is a structural error (`none`). -/
def addJson : Json → List Seg → Json → Option Json
  | _, [], v => some v
  | Json.obj fields, [Seg.key k], v => some (Json.obj (setField fields k v))
  | Json.obj fields, Seg.key k :: rest, v =>
    match getField fields k with
    | some child =>
      match addJson child rest v with
      | some child2 => some (Json.obj (setField fields k child2))
      | none => none
    | none => none
  | Json.arr elems, [Seg.idx i], v =>
    if i ≤ elems.length then some (Json.arr (insertAt elems i v)) else none
  | Json.arr elems, [Seg.append], v => some (Json.arr (elems ++ [v]))
  | Json.arr elems, Seg.idx i :: rest, v =>
    match elems[i]? with
    | some child =>
      match addJson child rest v with
      | some child2 => some (Json.arr (elems.set i child2))
      | none => none
    | none => none
  | _, _, _ => none

/-- Modelled from the spec: the `remove` operation; the target must resolve,
otherwise a structural error. -/
def removeJson : Json → List Seg → Option Json
  | _, [] => none
  | Json.obj fields, [Seg.key k] =>
    match getField fields k with
    | some _ => some (Json.obj (removeField fields k))
    | none => none
  | Json.obj fields, Seg.key k :: rest =>
    match getField fields k with
    | some child =>
      match removeJson child rest with
      | some child2 => some (Json.obj (setField fields k child2))
      | none => none
    | none => none
  | Json.arr elems, [Seg.idx i] =>
    if i < elems.length then some (Json.arr (elems.eraseIdx i)) else none
  | Json.arr elems, Seg.idx i :: rest =>
    match elems[i]? with
    | some child =>
      match removeJson child rest with
      | some child2 => some (Json.arr (elems.set i child2))
      | none => none
    | none => none
  | _, _ => none

/-- Modelled from the spec: the `replace` operation; the target must already
exist. -/
def replaceJson : Json → List Seg → Json → Option Json
  | _, [], v => some v
  | Json.obj fields, [Seg.key k], v =>
    match getField fields k with
    | some _ => some (Json.obj (setField fields k v))
    | none => none
  | Json.obj fields, Seg.key k :: rest, v =>
    match getField fields k with
    | some child =>
      match replaceJson child rest v with
      | some child2 => some (Json.obj (setField fields k child2))
      | none => none
    | none => none
  | Json.arr elems, [Seg.idx i], v =>
    if i < elems.length then some (Json.arr (elems.set i v)) else none
  | Json.arr elems, Seg.idx i :: rest, v =>
    match elems[i]? with
    | some child =>
      match replaceJson child rest v with
      | some child2 => some (Json.arr (elems.set i child2))
      | none => none
    | none => none
  | _, _, _ => none

/-- Modelled from the spec: apply one patch operation.  `add`, `remove`,
`replace`, `move` and `copy` follow standard JSON-Patch semantics and fail
with a structural error on an unresolved path; the `test` kind's assertion is
not enforced by design, so a `test` operation leaves the tree unchanged and
never fails. -/
def applyOp (st : Json) (op : PatchOp) : Except String Json :=
  match op.op with
  | OpKind.add =>
    match op.value with
    | some v =>
      match addJson st op.path v with
      | some st2 => Except.ok st2
      | none => Except.error "add: unresolved path"
    | none => Except.error "add: missing value"
  | OpKind.remove =>
    match removeJson st op.path with
    | some st2 => Except.ok st2
    | none => Except.error "remove: unresolved path"
  | OpKind.replace =>
    match op.value with
    | some v =>
      match replaceJson st op.path v with
      | some st2 => Except.ok st2
      | none => Except.error "replace: unresolved path"
    | none => Except.error "replace: missing value"
  | OpKind.move =>
    match op.fromPath with
    | some src =>
      match getJson st src with
      | some v =>
        match removeJson st src with
        | some st2 =>
          match addJson st2 op.path v with
          | some st3 => Except.ok st3
          | none => Except.error "move: unresolved path"
        | none => Except.error "move: unresolved source"
      | none => Except.error "move: unresolved source"
    | none => Except.error "move: missing source"
  | OpKind.copy =>
    match op.fromPath with
    | some src =>
      match getJson st src with
      | some v =>
        match addJson st op.path v with
        | some st2 => Except.ok st2
        | none => Except.error "copy: unresolved path"
      | none => Except.error "copy: unresolved source"
    | none => Except.error "copy: missing source"
  | OpKind.test => Except.ok st

/-- The store's `patch` action (`applyPatch(this.$state, patch, false)`):
operations applied strictly in order, in place, so on a structural error the
tree keeps the effect of the operations already applied and the error
propagates. -/
def applyOps : Json → List PatchOp → Json × Option String
  | st, [] => (st, none)
  | st, op :: rest =>
    match applyOp st op with
    | Except.ok st2 => applyOps st2 rest
    | Except.error e => (st, some e)

/-! ### Command gateway (`src/api/document.ts` and peers)

Every command function has the shape `appStore.patch(await invoke(cmd))`:
the backend round-trip resolves to a patch, which is applied at the moment
that command's own response resolves, or rejects, in which case nothing is
applied.  There is no issuance-order queue in the sources: each in-flight
command's continuation runs when its own promise settles. -/

/-- One command invocation: the state after the round-trip settles, paired
with the list of patches that invocation applied to the store. -/
def runInvocation (st : Json) (response : Except String (List PatchOp)) :
    Json × List (List PatchOp) :=
  match response with
  | Except.ok p => ((applyOps st p).1, [p])
  | Except.error _ => (st, [])

/-- An in-flight command: its issuance sequence number and its eventual
backend response. -/
structure Invocation where
  seq : Nat
  response : Except String (List PatchOp)

/-- The event loop processing backend responses in the order they resolve
(the list is in arrival order).  Returns the final store state and the
issuance numbers of the applied patches, in application order.  This is the
behavior of the source command functions: each one applies its patch when
its own response arrives. -/
def processArrivals : Json → List Invocation → Json × List Nat
  | st, [] => (st, [])
  | st, inv :: rest =>
    match inv.response with
    | Except.ok p =>
      let next := processArrivals (applyOps st p).1 rest
      (next.1, inv.seq :: next.2)
    | Except.error _ => processArrivals st rest

/-! ### Input dispatcher (the keyboard shortcut handler `onKeyDown`) -/

inductive NudgeDirection where
  | up
  | down
  | left
  | right
deriving DecidableEq, Repr

inductive BrowseDirection where
  | up
  | down
  | left
  | right
deriving DecidableEq, Repr

/-- The backend command (with its arguments) that a key event dispatches. -/
inductive Command where
  | newDocument
  | openDocuments
  | saveAll
  | save
  | saveAs (path : Option String)
  | doExport
  | beginExportAs
  | closeCurrentDocument
  | closeAllDocuments
  | undo
  | redo
  | cut
  | copy
  | paste
  | centerWorkbench
  | zoomInTimeline
  | zoomInWorkbench
  | zoomOutTimeline
  | zoomOutWorkbench
  | resetTimelineZoom
  | resetWorkbenchZoom
  | selectAll
  | nudgeSelection (direction : NudgeDirection) (largeNudge : Bool)
  | pause
  | play
  | deleteSelection
  | browseSelection (direction : BrowseDirection) (shift : Bool)
  | browseToStart (shift : Bool)
  | browseToEnd (shift : Bool)
  | beginRenameSelection
  | acknowledgeError
  | cancelExit
  | cancelRelocateFrames
  | cancelExportAs
deriving DecidableEq, Repr

structure KeyboardEvent where
  key : String
  ctrlKey : Bool
  altKey : Bool
  shiftKey : Bool
deriving DecidableEq, Repr

/-- The focused element (`document.activeElement`): its tag name and its
tab index. -/
structure FocusContext where
  tagName : String
  tabIndex : Int
deriving DecidableEq, Repr

/-- Truthiness of `state.currentDocument?.flag`: false when there is no
current document. -/
def docFlag (state : AppState) (f : Document → Bool) : Bool :=
  match currentDocument state with
  | some document => f document
  | none => false

/-- The keyboard handler: translates one key event, the focused element and
the store state into at most one dispatched command.  Transcribed branch for
branch from the source `onKeyDown`. -/
def onKeyDown (event : KeyboardEvent) (activeElement : FocusContext)
    (state : AppState) : Option Command :=
  let isActiveElementKeyboardFriendly := activeElement.tabIndex ≠ -1
  if activeElement.tagName = "INPUT" then
    none
  else if event.ctrlKey then
    if event.key = "n" then some Command.newDocument
    else if event.key = "o" then some Command.openDocuments
    else if event.key = "s" then
      if event.altKey then some Command.saveAll else some Command.save
    else if event.key = "S" then some (Command.saveAs state.currentDocumentPath)
    else if event.key = "e" then some Command.doExport
    else if event.key = "E" then some Command.beginExportAs
    else if event.key = "w" then some Command.closeCurrentDocument
    else if event.key = "W" then some Command.closeAllDocuments
    else if event.key = "z" then some Command.undo
    else if event.key = "Z" then some Command.redo
    else if event.key = "x" then some Command.cut
    else if event.key = "c" then some Command.copy
    else if event.key = "v" then some Command.paste
    else if event.key = " " then some Command.centerWorkbench
    else if event.key = "+" ∨ event.key = "=" then
      if event.altKey then some Command.zoomInTimeline else some Command.zoomInWorkbench
    else if event.key = "-" then
      if event.altKey then some Command.zoomOutTimeline else some Command.zoomOutWorkbench
    else if event.key = "0" then
      if event.altKey then some Command.resetTimelineZoom else some Command.resetWorkbenchZoom
    else if event.key = "a" then some Command.selectAll
    else if event.key = "ArrowUp" then
      some (Command.nudgeSelection NudgeDirection.up event.shiftKey)
    else if event.key = "ArrowDown" then
      some (Command.nudgeSelection NudgeDirection.down event.shiftKey)
    else if event.key = "ArrowLeft" then
      some (Command.nudgeSelection NudgeDirection.left event.shiftKey)
    else if event.key = "ArrowRight" then
      some (Command.nudgeSelection NudgeDirection.right event.shiftKey)
    else none
  else
    if event.key = " " then
      if !isActiveElementKeyboardFriendly then
        if docFlag state (fun d => d.timelineIsPlaying) then some Command.pause
        else some Command.play
      else none
    else if event.key = "Delete" then some Command.deleteSelection
    else if event.key = "ArrowUp" then
      some (Command.browseSelection BrowseDirection.up event.shiftKey)
    else if event.key = "ArrowDown" then
      some (Command.browseSelection BrowseDirection.down event.shiftKey)
    else if event.key = "ArrowLeft" then
      some (Command.browseSelection BrowseDirection.left event.shiftKey)
    else if event.key = "ArrowRight" then
      some (Command.browseSelection BrowseDirection.right event.shiftKey)
    else if event.key = "Home" then some (Command.browseToStart event.shiftKey)
    else if event.key = "End" then some (Command.browseToEnd event.shiftKey)
    else if event.key = "F2" then some Command.beginRenameSelection
    else if event.key = "Enter" then none
    else if event.key = "Escape" then
      if state.error.isSome then some Command.acknowledgeError
      else if docFlag state (fun d => d.wasCloseRequested) then some Command.cancelExit
      else if docFlag state (fun d => d.framesBeingRelocated) then
        some Command.cancelRelocateFrames
      else if docFlag state (fun d => d.exportSettingsBeingEdited) then
        some Command.cancelExportAs
      else none
    else none

/-! ### Concrete fixtures used to evaluate the definitions -/

def kfSel : Keyframe := { hitboxes := [], selected := true }

def kfUnsel : Keyframe := { hitboxes := [], selected := false }

def seqNorth : Sequence := { keyframes := [kfSel, kfUnsel] }

def seqSouth : Sequence := { keyframes := [kfUnsel, kfSel] }

def animWalk : Animation :=
  { name := "Walk", selected := false,
    sequences := [("North", seqNorth), ("South", seqSouth)] }

def docFix : Document :=
  { path := "doc.tiger",
    sheet := { frames := [], animations := [("Walk", animWalk)] },
    currentAnimationName := some "Walk",
    currentSequenceDirection := some "North",
    currentKeyframeIndex := some 0,
    timelineIsPlaying := false,
    wasCloseRequested := false,
    framesBeingRelocated := false,
    exportSettingsBeingEdited := false }

def stFix : AppState :=
  { documents := [docFix], currentDocumentPath := some "doc.tiger",
    recentDocumentPaths := [], clipboardManifest := none,
    isReleaseBuild := false, error := none }

def docFrames : Document :=
  { path := "frames.tiger",
    sheet := { frames := [{ path := "frame.png", selected := true }], animations := [] },
    currentAnimationName := none,
    currentSequenceDirection := none,
    currentKeyframeIndex := none,
    timelineIsPlaying := false,
    wasCloseRequested := false,
    framesBeingRelocated := false,
    exportSettingsBeingEdited := false }

def stFramesOnly : AppState :=
  { documents := [docFrames], currentDocumentPath := some "frames.tiger",
    recentDocumentPaths := [], clipboardManifest := none,
    isReleaseBuild := false, error := none }

def docClosing : Document :=
  { path := "closing.tiger",
    sheet := { frames := [], animations := [] },
    currentAnimationName := none,
    currentSequenceDirection := none,
    currentKeyframeIndex := none,
    timelineIsPlaying := false,
    wasCloseRequested := true,
    framesBeingRelocated := false,
    exportSettingsBeingEdited := false }

def stErrClosing : AppState :=
  { documents := [docClosing], currentDocumentPath := some "closing.tiger",
    recentDocumentPaths := [], clipboardManifest := none,
    isReleaseBuild := false, error := some "backend failure" }

def escEvent : KeyboardEvent := { key := "Escape", ctrlKey := false, altKey := false, shiftKey := false }

def aEvent : KeyboardEvent := { key := "a", ctrlKey := false, altKey := false, shiftKey := false }

def ctrlZEvent : KeyboardEvent := { key := "z", ctrlKey := true, altKey := false, shiftKey := false }

def deleteEvent : KeyboardEvent := { key := "Delete", ctrlKey := false, altKey := false, shiftKey := false }

def inputFocus : FocusContext := { tagName := "INPUT", tabIndex := 0 }

def bodyFocus : FocusContext := { tagName := "BODY", tabIndex := -1 }

def errNullState : Json := Json.obj [("error", Json.null)]

def opTestErr : PatchOp :=
  { op := OpKind.test, path := [Seg.key "error"], value := some (Json.str "expected") }

def opSetErr : PatchOp :=
  { op := OpKind.replace, path := [Seg.key "error"], value := some (Json.str "boom") }

def patchA : List PatchOp :=
  [{ op := OpKind.replace, path := [Seg.key "error"], value := some (Json.str "A") }]

def patchB : List PatchOp :=
  [{ op := OpKind.replace, path := [Seg.key "error"], value := some (Json.str "B") }]

/-! ### Helper lemmas -/

/-- A non-empty value of an optional list: the spec's notion of a selection
getter being available and non-empty. -/
def nonEmptyOpt {α : Type} (o : Option (List α)) : Prop := ∃ x xs, o = some (x :: xs)

theorem lengthTruthy_iff {α : Type} (o : Option (List α)) :
    lengthTruthy o = true ↔ nonEmptyOpt o := by
  cases o with
  | none => simp [lengthTruthy, nonEmptyOpt]
  | some l =>
    cases l with
    | nil => simp [lengthTruthy, nonEmptyOpt]
    | cons x xs =>
      simp only [lengthTruthy, List.isEmpty_cons, Bool.not_false, nonEmptyOpt, true_iff]
      exact ⟨x, xs, rfl⟩

theorem applyOps_append (st : Json) (p q : List PatchOp) :
    applyOps st (p ++ q) =
      match applyOps st p with
      | (st1, none) => applyOps st1 q
      | (st1, some e) => (st1, some e) := by
  induction p generalizing st with
  | nil => simp [applyOps]
  | cons op rest ih =>
    simp only [List.cons_append, applyOps]
    cases applyOp st op with
    | ok st2 => exact ih st2
    | error e => rfl

theorem applyOp_test (st : Json) (op : PatchOp) (h : op.op = OpKind.test) :
    applyOp st op = Except.ok st := by
  simp [applyOp, h]

theorem currentDocumentRun_eq (st : AppState) :
    currentDocumentRun st = (currentDocument st, st) := rfl

theorem sortedAnimationsRun_eq (st : AppState) :
    sortedAnimationsRun st = (sortedAnimations st, st) := by
  unfold sortedAnimationsRun sortedAnimations
  rw [currentDocumentRun_eq]
  cases currentDocument st <;> rfl

theorem currentAnimationRun_eq (st : AppState) :
    currentAnimationRun st = (currentAnimation st, st) := by
  unfold currentAnimationRun currentAnimation
  rw [currentDocumentRun_eq]
  cases currentDocument st <;> rfl

theorem currentSequenceRun_eq (st : AppState) :
    currentSequenceRun st = (currentSequence st, st) := by
  cases ha : currentAnimation st with
  | none => simp [currentSequenceRun, currentSequence, currentAnimationRun_eq, ha]
  | some a =>
    cases hd : currentDocument st <;>
      simp [currentSequenceRun, currentSequence, currentAnimationRun_eq,
        currentDocumentRun_eq, ha, hd]

theorem currentKeyframeRun_eq (st : AppState) :
    currentKeyframeRun st = (currentKeyframe st, st) := by
  cases hs : currentSequence st with
  | none => simp [currentKeyframeRun, currentKeyframe, currentSequenceRun_eq, hs]
  | some s =>
    cases hd : currentDocument st <;>
      simp [currentKeyframeRun, currentKeyframe, currentSequenceRun_eq,
        currentDocumentRun_eq, hs, hd]

theorem selectedFramesRun_eq (st : AppState) :
    selectedFramesRun st = (selectedFrames st, st) := by
  unfold selectedFramesRun selectedFrames
  rw [currentDocumentRun_eq]
  cases currentDocument st <;> rfl

theorem selectedAnimationsRun_eq (st : AppState) :
    selectedAnimationsRun st = (selectedAnimations st, st) := by
  unfold selectedAnimationsRun selectedAnimations
  rw [sortedAnimationsRun_eq]
  cases sortedAnimations st <;> rfl

theorem selectedHitboxesRun_eq (st : AppState) :
    selectedHitboxesRun st = (selectedHitboxes st, st) := by
  unfold selectedHitboxesRun selectedHitboxes
  rw [currentKeyframeRun_eq]
  cases currentKeyframe st <;> rfl

theorem selectedKeyframesRun_eq (st : AppState) :
    selectedKeyframesRun st = (selectedKeyframes st, st) := by
  unfold selectedKeyframesRun selectedKeyframes
  rw [currentAnimationRun_eq]
  cases currentAnimation st <;> rfl

theorem canCutRun_eq (st : AppState) : canCutRun st = (canCut st, st) := by
  unfold canCutRun canCut
  simp only [selectedAnimationsRun_eq, selectedKeyframesRun_eq, selectedHitboxesRun_eq]

theorem canCopyRun_eq (st : AppState) : canCopyRun st = (canCopy st, st) := by
  unfold canCopyRun canCopy
  simp only [selectedFramesRun_eq, selectedAnimationsRun_eq, selectedKeyframesRun_eq,
    selectedHitboxesRun_eq]

/-! ### Claims -/

/-- C1: the claim requires that when commands A (issuance 0) and B
(issuance 1) are issued in that order without awaiting A, A's patch is
applied to the store before B's even when B's backend response resolves
first.  The source applies each patch at the moment its own response
resolves, with no issuance-order queue: on the arrival schedule where B's
response resolves first, B's patch is applied first (application order
`[1, 0]`), and the resulting store differs from the one produced by
issuance-order application. -/
theorem arrival_order_beats_issuance_order :
    (processArrivals errNullState
      [{ seq := 1, response := Except.ok patchB },
       { seq := 0, response := Except.ok patchA }]).2 = [1, 0] ∧
    (processArrivals errNullState
      [{ seq := 1, response := Except.ok patchB },
       { seq := 0, response := Except.ok patchA }]).1 =
      Json.obj [("error", Json.str "A")] ∧
    (processArrivals errNullState
      [{ seq := 0, response := Except.ok patchA },
       { seq := 1, response := Except.ok patchB }]).1 =
      Json.obj [("error", Json.str "B")] :=
  ⟨rfl, rfl, rfl⟩

/-- C2: a `test` operation whose asserted value differs from the value at
its target path does not make patch application fail, and the remaining
operations of the patch are still applied in order: applying the patch is
the same as applying it with that `test` operation dropped. -/
theorem patch_test_not_enforced (st : Json) (pre post : List PatchOp) (op : PatchOp)
    (v : Json) (hop : op.op = OpKind.test) (hval : op.value = some v)
    (hmismatch : getJson st op.path ≠ some v) :
    applyOps st (pre ++ op :: post) = applyOps st (pre ++ post) := by
  rw [applyOps_append, applyOps_append]
  cases h : applyOps st pre with
  | mk st1 err =>
    cases err with
    | none =>
      simp only
      show applyOps st1 (op :: post) = applyOps st1 post
      simp [applyOps, applyOp_test st1 op hop]
    | some e => rfl

theorem patch_test_not_enforced_witness :
    applyOps errNullState ([] ++ opTestErr :: [opSetErr]) =
      applyOps errNullState ([] ++ [opSetErr]) :=
  patch_test_not_enforced errNullState [] [opSetErr] opTestErr (Json.str "expected")
    rfl rfl
    (by
      rw [show getJson errNullState opTestErr.path = some Json.null from rfl]
      intro h
      injection h with h2
      exact Json.noConfusion h2)

/-- C3 counterexample: a command invocation whose backend round-trip rejects
leaves the store exactly as it was — in particular the error slot, `null`
before the invocation, is still `null` afterwards, so it is not set by the
frontend as the claim states. -/
theorem rejected_invocation_error_slot_untouched :
    runInvocation errNullState (Except.error "ipc failure") = (errNullState, []) ∧
    getJson errNullState [Seg.key "error"] = some Json.null :=
  ⟨rfl, rfl⟩

/-- C3 amended: a rejecting round-trip applies no patch and leaves the
AppState (error slot included) unchanged; a successful round-trip applies
its returned patch exactly once. -/
theorem invocation_patch_application (st : Json) (e : String) (p : List PatchOp) :
    runInvocation st (Except.error e) = (st, []) ∧
    runInvocation st (Except.ok p) = ((applyOps st p).1, [p]) :=
  ⟨rfl, rfl⟩

/-- C4: `canCut` is true exactly when at least one of `selectedAnimations`,
`selectedKeyframes`, `selectedHitboxes` is available and non-empty, and in
particular it is false whenever those three are all empty or unavailable —
so a frames-only selection cannot be cut. -/
theorem canCut_spec (st : AppState) :
    (canCut st = true ↔
      nonEmptyOpt (selectedAnimations st) ∨ nonEmptyOpt (selectedKeyframes st) ∨
        nonEmptyOpt (selectedHitboxes st)) ∧
    (¬ nonEmptyOpt (selectedAnimations st) → ¬ nonEmptyOpt (selectedKeyframes st) →
      ¬ nonEmptyOpt (selectedHitboxes st) → canCut st = false) := by
  have hiff : canCut st = true ↔
      nonEmptyOpt (selectedAnimations st) ∨ nonEmptyOpt (selectedKeyframes st) ∨
        nonEmptyOpt (selectedHitboxes st) := by
    simp [canCut, Bool.or_eq_true, lengthTruthy_iff, or_assoc]
  refine ⟨hiff, fun h1 h2 h3 => ?_⟩
  cases hc : canCut st with
  | false => rfl
  | true =>
    rcases hiff.mp hc with h | h | h
    · exact absurd h h1
    · exact absurd h h2
    · exact absurd h h3

unseal List.merge List.mergeSort in
theorem canCut_spec_witness :
    nonEmptyOpt (selectedFrames stFramesOnly) ∧ canCut stFramesOnly = false := by
  constructor
  · exact ⟨{ path := "frame.png", selected := true }, [], rfl⟩
  · refine (canCut_spec stFramesOnly).2 ?_ ?_ ?_
    · rintro ⟨x, xs, h⟩
      rw [show selectedAnimations stFramesOnly = some [] from rfl] at h
      simp at h
    · rintro ⟨x, xs, h⟩
      rw [show selectedKeyframes stFramesOnly = none from rfl] at h
      simp at h
    · rintro ⟨x, xs, h⟩
      rw [show selectedHitboxes stFramesOnly = none from rfl] at h
      simp at h

/-- C5: with a current animation, `selectedKeyframes` is exactly the
selected keyframes gathered across all sequence directions of that
animation, in direction-map iteration order and, within a direction, in
keyframe-index order; without a current animation it is none. -/
theorem selectedKeyframes_spec (st : AppState) :
    (∀ a, currentAnimation st = some a →
      selectedKeyframes st =
        some (a.sequences.flatMap
          (fun ds => ds.2.keyframes.filter (fun k => k.selected)))) ∧
    (currentAnimation st = none → selectedKeyframes st = none) := by
  constructor
  · intro a ha
    unfold selectedKeyframes
    rw [ha, show Option.map (fun animation : Animation =>
        (animation.sequences.map Prod.snd).flatMap
          (fun sequence => sequence.keyframes.filter (fun k => k.selected))) (some a) =
      some ((a.sequences.map Prod.snd).flatMap
          (fun sequence => sequence.keyframes.filter (fun k => k.selected))) from rfl,
      List.flatMap_map]
  · intro h
    simp [selectedKeyframes, h]

theorem selectedKeyframes_spec_witness :
    currentAnimation stFix = some animWalk ∧
    selectedKeyframes stFix = some [kfSel, kfSel] := by
  refine ⟨rfl, ?_⟩
  rw [(selectedKeyframes_spec stFix).1 animWalk rfl]
  rfl

/-- C6: for an Escape key event without the primary modifier, while focus is
not on a text-entry control, exactly the first matching condition in the
fixed priority order is dispatched: acknowledge the current error; else
cancel a pending close-request; else cancel an in-progress frame relocation;
else cancel an in-progress export-settings edit; and nothing is dispatched
when none apply. -/
theorem escape_priority (event : KeyboardEvent) (activeElement : FocusContext)
    (st : AppState) (hkey : event.key = "Escape") (hctrl : event.ctrlKey = false)
    (hfocus : activeElement.tagName ≠ "INPUT") :
    (st.error.isSome = true →
      onKeyDown event activeElement st = some Command.acknowledgeError) ∧
    (st.error = none → docFlag st (fun d => d.wasCloseRequested) = true →
      onKeyDown event activeElement st = some Command.cancelExit) ∧
    (st.error = none → docFlag st (fun d => d.wasCloseRequested) = false →
      docFlag st (fun d => d.framesBeingRelocated) = true →
      onKeyDown event activeElement st = some Command.cancelRelocateFrames) ∧
    (st.error = none → docFlag st (fun d => d.wasCloseRequested) = false →
      docFlag st (fun d => d.framesBeingRelocated) = false →
      docFlag st (fun d => d.exportSettingsBeingEdited) = true →
      onKeyDown event activeElement st = some Command.cancelExportAs) ∧
    (st.error = none → docFlag st (fun d => d.wasCloseRequested) = false →
      docFlag st (fun d => d.framesBeingRelocated) = false →
      docFlag st (fun d => d.exportSettingsBeingEdited) = false →
      onKeyDown event activeElement st = none) := by
  refine ⟨?_, ?_, ?_, ?_, ?_⟩
  · intro herr
    simp [onKeyDown, hkey, hctrl, hfocus, herr]
  · intro herr hclose
    simp [onKeyDown, hkey, hctrl, hfocus, herr, hclose]
  · intro herr hclose hreloc
    simp [onKeyDown, hkey, hctrl, hfocus, herr, hclose, hreloc]
  · intro herr hclose hreloc hexp
    simp [onKeyDown, hkey, hctrl, hfocus, herr, hclose, hreloc, hexp]
  · intro herr hclose hreloc hexp
    simp [onKeyDown, hkey, hctrl, hfocus, herr, hclose, hreloc, hexp]

theorem escape_priority_witness :
    stErrClosing.error = some "backend failure" ∧
    docFlag stErrClosing (fun d => d.wasCloseRequested) = true ∧
    onKeyDown escEvent bodyFocus stErrClosing = some Command.acknowledgeError := by
  refine ⟨rfl, rfl, ?_⟩
  exact (escape_priority escEvent bodyFocus stErrClosing rfl rfl (by decide)).1 rfl

/-- C7: while the focused element is a text-entry control, a key event with
no modifiers held — in particular a plain character key such as "a" —
dispatches no command. -/
theorem text_entry_swallows_plain_keys (event : KeyboardEvent)
    (activeElement : FocusContext) (st : AppState)
    (hfocus : activeElement.tagName = "INPUT") (hctrl : event.ctrlKey = false)
    (halt : event.altKey = false) (hshift : event.shiftKey = false) :
    onKeyDown event activeElement st = none := by
  simp [onKeyDown, hfocus]

theorem text_entry_swallows_plain_keys_witness :
    onKeyDown aEvent inputFocus stFix = none :=
  text_entry_swallows_plain_keys aEvent inputFocus stFix rfl rfl rfl rfl

/-- C9: while the focused element is an INPUT element, the keydown handler
dispatches no command at all, whatever the key and modifiers. -/
theorem input_focus_blocks_all_dispatch (event : KeyboardEvent)
    (activeElement : FocusContext) (st : AppState)
    (hfocus : activeElement.tagName = "INPUT") :
    onKeyDown event activeElement st = none := by
  simp [onKeyDown, hfocus]

theorem input_focus_blocks_all_dispatch_witness :
    onKeyDown ctrlZEvent inputFocus stFix = none ∧
    onKeyDown deleteEvent inputFocus stFix = none ∧
    onKeyDown escEvent inputFocus stErrClosing = none :=
  ⟨input_focus_blocks_all_dispatch ctrlZEvent inputFocus stFix rfl,
   input_focus_blocks_all_dispatch deleteEvent inputFocus stFix rfl,
   input_focus_blocks_all_dispatch escEvent inputFocus stErrClosing rfl⟩

/-- C10: a `currentKeyframeIndex` of 0 is treated as present, not absent:
with a current sequence whose keyframe list is non-empty and index 0,
`currentKeyframe` is the first keyframe of the current sequence. -/
theorem currentKeyframe_index_zero (st : AppState) (document : Document)
    (sequence : Sequence) (k : Keyframe) (ks : List Keyframe)
    (hdoc : currentDocument st = some document)
    (hseq : currentSequence st = some sequence)
    (hidx : document.currentKeyframeIndex = some 0)
    (hkf : sequence.keyframes = k :: ks) :
    currentKeyframe st = some k := by
  simp [currentKeyframe, hdoc, hseq, hidx, hkf]

theorem currentKeyframe_index_zero_witness :
    docFix.currentKeyframeIndex = some 0 ∧ currentKeyframe stFix = some kfSel :=
  ⟨rfl, currentKeyframe_index_zero stFix docFix seqNorth kfSel [kfUnsel] rfl rfl rfl rfl⟩

/-- C8: evaluating any of the eleven getters leaves the AppState unchanged,
and each one agrees with its pure derivation from the state snapshot; in
particular `sortedAnimations` returns a sorted copy — a permutation of the
stored animation-map values — while the stored map keeps its order (the
state, the map included, is returned untouched). -/
theorem getters_pure (st : AppState) :
    ((currentDocumentRun st).2 = st ∧ (sortedAnimationsRun st).2 = st ∧
     (currentAnimationRun st).2 = st ∧ (currentSequenceRun st).2 = st ∧
     (currentKeyframeRun st).2 = st ∧ (selectedFramesRun st).2 = st ∧
     (selectedAnimationsRun st).2 = st ∧ (selectedHitboxesRun st).2 = st ∧
     (selectedKeyframesRun st).2 = st ∧ (canCutRun st).2 = st ∧
     (canCopyRun st).2 = st) ∧
    ((currentDocumentRun st).1 = currentDocument st ∧
     (sortedAnimationsRun st).1 = sortedAnimations st ∧
     (currentAnimationRun st).1 = currentAnimation st ∧
     (currentSequenceRun st).1 = currentSequence st ∧
     (currentKeyframeRun st).1 = currentKeyframe st ∧
     (selectedFramesRun st).1 = selectedFrames st ∧
     (selectedAnimationsRun st).1 = selectedAnimations st ∧
     (selectedHitboxesRun st).1 = selectedHitboxes st ∧
     (selectedKeyframesRun st).1 = selectedKeyframes st ∧
     (canCutRun st).1 = canCut st ∧ (canCopyRun st).1 = canCopy st) ∧
    (∀ document, currentDocument st = some document →
      ∃ l, sortedAnimations st = some l ∧
        List.Perm l (document.sheet.animations.map Prod.snd)) := by
  refine ⟨?_, ?_, ?_⟩
  · rw [currentDocumentRun_eq, sortedAnimationsRun_eq, currentAnimationRun_eq,
      currentSequenceRun_eq, currentKeyframeRun_eq, selectedFramesRun_eq,
      selectedAnimationsRun_eq, selectedHitboxesRun_eq, selectedKeyframesRun_eq,
      canCutRun_eq, canCopyRun_eq]
    exact ⟨rfl, rfl, rfl, rfl, rfl, rfl, rfl, rfl, rfl, rfl, rfl⟩
  · rw [currentDocumentRun_eq, sortedAnimationsRun_eq, currentAnimationRun_eq,
      currentSequenceRun_eq, currentKeyframeRun_eq, selectedFramesRun_eq,
      selectedAnimationsRun_eq, selectedHitboxesRun_eq, selectedKeyframesRun_eq,
      canCutRun_eq, canCopyRun_eq]
    exact ⟨rfl, rfl, rfl, rfl, rfl, rfl, rfl, rfl, rfl, rfl, rfl⟩
  · intro document hdoc
    refine ⟨(document.sheet.animations.map Prod.snd).mergeSort nameLe, ?_, ?_⟩
    · simp [sortedAnimations, hdoc]
    · exact List.mergeSort_perm (document.sheet.animations.map Prod.snd) nameLe

theorem getters_pure_witness :
    (sortedAnimationsRun stFix).2 = stFix ∧
    ∃ l, sortedAnimations stFix = some l ∧
      List.Perm l (docFix.sheet.animations.map Prod.snd) :=
  ⟨(getters_pure stFix).1.2.1, (getters_pure stFix).2.2 docFix rfl⟩
